import Mathlib

/-!
Verification model of the pyrunner execution engine
(python-batch-runner: src/pyrunner/core/node.py, pyrunner.py, signal.py).

Machine integers are modelled as `Int`/`Nat`; wall-clock timestamps are `Nat`
values supplied by the caller (each place the source calls `time.time()` the
model takes an explicit time argument).  Worker processes are external, so
their observable behaviour (spawn success, aliveness, exit code) enters the
model as explicit oracle arguments.  Status sets of the `NodeRegister` are
lists of node ids treated as sets (`ExecutionNode.__eq__`/`__hash__` compare
ids only, so Python set membership is id membership).
-/

/-- Runtime state of `ExecutionNode` (src/pyrunner/core/node.py, lines 35-65).
`timeout` is `Option Nat`, `none` modelling the default `float("inf")`;
`proc` records whether `_proc` is set (a process object is attached);
`log` is an observation of lines written to the node's log file. -/
structure ExecutionNode where
  id : Int := -1
  attempts : Nat := 0
  max_attempts : Nat := 1
  retry_wait_time : Nat := 0
  wait_until : Nat := 0
  start_time : Nat := 0
  end_time : Nat := 0
  timeout : Option Nat := none
  exec_interval : Nat := 1
  proc : Bool := false
  log : List String := []
  deriving DecidableEq

/-- `ExecutionNode.is_runnable` (node.py lines 79-80): `time.time() >= self._wait_until`. -/
def ExecutionNode.is_runnable (nd : ExecutionNode) (now : Nat) : Bool :=
  decide (now ≥ nd.wait_until)

/-- `ExecutionNode.revive` (node.py lines 82-84): reset attempts, push wait_until. -/
def ExecutionNode.revive (nd : ExecutionNode) (now : Nat) : ExecutionNode :=
  { nd with attempts := 0, wait_until := now + nd.exec_interval }

/-- `ExecutionNode.cleanup` (node.py lines 203-206): drop the process handle. -/
def ExecutionNode.cleanup (nd : ExecutionNode) : ExecutionNode :=
  { nd with proc := false }

/-- `ExecutionNode.execute` (node.py lines 98-141).  Early return when the
retry wait has not elapsed; otherwise increment attempts, record the first
start time, and spawn the worker process.  `spawnOk = false` models an
exception raised during spawn setup: it is caught, a line is written to the
node's log file, and `_proc` remains unset (lines 117-141). -/
def ExecutionNode.execute (nd : ExecutionNode) (now : Nat) (spawnOk : Bool) : ExecutionNode :=
  if nd.is_runnable now = false then nd
  else
    let nd1 := { nd with attempts := nd.attempts + 1 }
    let nd2 := if nd1.start_time = 0 then { nd1 with start_time := now } else nd1
    if spawnOk then { nd2 with proc := true }
    else { nd2 with log := nd2.log ++ ["launch-error-logged"] }

/-- Timeout test of `ExecutionNode.poll` (node.py line 180):
`(time.time() - self._start_time) >= self.timeout`, false for the default
infinite timeout. -/
def timeout_exceeded (nd : ExecutionNode) (now : Nat) : Bool :=
  match nd.timeout with
  | none => false
  | some T => decide ((now : Int) - (nd.start_time : Int) ≥ (T : Int))

/-- Body of `ExecutionNode.terminate` once the `self._proc` dereference has
succeeded (node.py lines 194-201): if the process is alive, kill it and log
the reason; always cleanup; return the reserved sentinel 907. -/
def ExecutionNode.terminate_live (nd : ExecutionNode) (alive : Bool) : ExecutionNode × Int :=
  let nd1 := if alive then { nd with log := nd.log ++ ["terminate-logged"] } else nd
  (nd1.cleanup, 907)

/-- `ExecutionNode.terminate` (node.py lines 190-201).  The method opens with
`if self._proc.is_alive():` (line 194) with no guard: when `_proc` is unset
the dereference raises AttributeError, modelled as `none`; otherwise the
body `terminate_live` runs. -/
def ExecutionNode.terminate (nd : ExecutionNode) (alive : Bool) : Option (ExecutionNode × Int) :=
  if nd.proc = false then none
  else some (nd.terminate_live alive)

/-- `ExecutionNode.poll` (node.py lines 143-188).  `alive` is the result of
`self._proc.is_alive()` and `workerRet` the worker's shared return code, both
external observations.  Returns the mutated node and the poll result
(`none` = still running).  901 is the reserved sentinel for a node with no
process attached; on a positive exit code with attempts remaining the retry
wait is set, a restart message logged, and the transient sentinel -1
returned; on timeout the node is force-terminated via `terminate` — the top
guard of `poll` returned 901 whenever `_proc` is unset, so in the timeout
branch the dereference inside `terminate` cannot fault and the total body
`terminate_live` models it. -/
def ExecutionNode.poll (nd : ExecutionNode) (now : Nat) (wait : Bool) (alive : Bool)
    (workerRet : Int) : ExecutionNode × Option Int :=
  if nd.proc = false then (nd, some 901)
  else
    if alive = false ∨ wait = true then
      let nd1 := { nd with end_time := now }
      if workerRet > 0 ∧ nd1.attempts < nd1.max_attempts then
        let nd2 := { nd1 with
          wait_until := now + nd1.retry_wait_time,
          log := nd1.log ++ ["restart-message"] }
        (nd2.cleanup, some (-1))
      else
        (nd1.cleanup, some workerRet)
    else if timeout_exceeded nd now then
      let p := nd.terminate_live alive
      (p.1, some p.2)
    else (nd, none)

/-- One failing attempt cycle: launch the node (spawn succeeds) at time `t`,
then poll at time `u` after the worker process has exited with code `c`
(non-blocking poll, process no longer alive). -/
def fail_cycle (nd : ExecutionNode) (t u : Nat) (c : Int) : ExecutionNode × Option Int :=
  (nd.execute t true).poll u false false c

/-- Iterate `fail_cycle` over a schedule of (launch time, poll time) pairs,
collecting the poll results. -/
def run_cycles (c : Int) : ExecutionNode → List (Nat × Nat) → ExecutionNode × List (Option Int)
  | nd, [] => (nd, [])
  | nd, (t, u) :: rest =>
    let p := fail_cycle nd t u c
    let q := run_cycles c p.1 rest
    (q.1, p.2 :: q.2)

/-- A schedule is valid from wait bound `w` when every launch happens no
earlier than the wait bound left by the previous retry
(`wait_until = poll time + retry_wait_time`). -/
def valid_sched (w rwt : Nat) : List (Nat × Nat) → Bool
  | [] => true
  | (t, u) :: rest => decide (w ≤ t) && valid_sched (u + rwt) rwt rest

/-- The four signal kinds of src/pyrunner/core/signal.py. -/
inductive Sig
  | abort
  | pause
  | pulse
  | revive
  deriving DecidableEq

/-- Presence of the per-signal marker files (signal.py `peek`). -/
structure SignalState where
  abort : Bool := false
  pause : Bool := false
  pulse : Bool := false
  revive : Bool := false
  deriving DecidableEq

/-- Marker presence for one signal kind. -/
def SignalState.get (s : SignalState) : Sig → Bool
  | .abort => s.abort
  | .pause => s.pause
  | .pulse => s.pulse
  | .revive => s.revive

/-- `SignalHandler.emit` (signal.py lines 39-42): create the marker file. -/
def SignalState.emit (s : SignalState) : Sig → SignalState
  | .abort => { s with abort := true }
  | .pause => { s with pause := true }
  | .pulse => { s with pulse := true }
  | .revive => { s with revive := true }

/-- Remove one marker file. -/
def SignalState.clear (s : SignalState) : Sig → SignalState
  | .abort => { s with abort := false }
  | .pause => { s with pause := false }
  | .pulse => { s with pulse := false }
  | .revive => { s with revive := false }

/-- `SignalHandler.consume` (signal.py lines 44-51): check-and-clear. -/
def SignalState.consume (s : SignalState) (g : Sig) : Bool × SignalState :=
  if s.get g = true then (true, s.clear g) else (false, s)

/-- `SignalHandler.consume_all` (signal.py lines 53-57): clear every marker. -/
def SignalState.consume_all (_ : SignalState) : SignalState :=
  {}

/-- `PyRunner.dup_proc_is_running` (pyrunner.py lines 76-83): emit PULSE,
sleep 1.1 s, and report a duplicate when PULSE is gone.  `otherConsumedPulse`
models whether a live scheduler instance consumed the PULSE marker during the
sleep (its own tick consumes PULSE, pyrunner.py line 204). -/
def dup_proc_is_running (s : SignalState) (otherConsumedPulse : Bool) : Bool × SignalState :=
  let s1 := s.emit .pulse
  let s2 := if otherConsumedPulse then (s1.consume .pulse).2 else s1
  if s2.pulse = false then (true, s2) else (false, s2)

/-- Outcome of `PyRunner.process_signals`. -/
inductive StartupOutcome
  | exited
  | duplicateRunError
  | started (s : SignalState)
  deriving DecidableEq

/-- `PyRunner.process_signals` (pyrunner.py lines 138-159).  `abortFlag` and
`reviveFlag` are the `--abort`/`--revive` CLI switches (both emit a signal
and exit).  `allow_duplicate_jobs` is the configuration value set by the
`--allow-duplicate-jobs` option (pyrunner.py line 617); it is threaded in
explicitly, and, as in the source, the duplicate check does not read it.
A detected duplicate raises OSError (`duplicateRunError`); otherwise all
stale signals are cleared and startup proceeds. -/
def process_signals (abortFlag reviveFlag allow_duplicate_jobs : Bool)
    (s : SignalState) (otherConsumedPulse : Bool) : StartupOutcome :=
  if abortFlag = true then .exited
  else if reviveFlag = true then .exited
  else
    let p := dup_proc_is_running s otherConsumedPulse
    if p.1 = true then .duplicateRunError
    else .started (p.2.consume_all)

/-- Status sets of the `NodeRegister` (pyrunner.core.register is imported by
pyrunner.py but register.py is not part of src/; the attribute names below
are exactly those the scheduler loop reads).  Each set holds node ids. -/
structure NodeRegister where
  pending_nodes : List Int := []
  running_nodes : List Int := []
  completed_nodes : List Int := []
  failed_nodes : List Int := []
  defaulted_nodes : List Int := []
  aborted_nodes : List Int := []
  norun_nodes : List Int := []
  deriving DecidableEq

/-- Python `set.add`: insert without duplicating. -/
def addS (x : Int) (s : List Int) : List Int :=
  if x ∈ s then s else x :: s

/-- Python `set.remove`: drop the element. -/
def removeS (x : Int) (s : List Int) : List Int :=
  s.filter (fun y => y != x)

/-- Directed dependency edges (parent id, child id) of the execution graph. -/
def children_of (es : List (Int × Int)) (x : Int) : List Int :=
  (es.filter (fun e => e.1 == x)).map (fun e => e.2)

/-- Parent ids of a node under the edge list (`node.parent_nodes`). -/
def parents_of (es : List (Int × Int)) (y : Int) : List Int :=
  (es.filter (fun e => e.2 == y)).map (fun e => e.1)

/-- Fuel-bounded reachability along child edges. -/
def desc_fuel (es : List (Int × Int)) : Nat → Int → Int → Bool
  | 0, _, _ => false
  | fuel + 1, x, y => (children_of es x).any (fun c => c == y || desc_fuel es fuel c y)

/-- `y` is a strict descendant of `x` (fuel `es.length` covers every acyclic
path). -/
def isDesc (es : List (Int × Int)) (x y : Int) : Bool :=
  desc_fuel es es.length x y

/-- Modelled from the spec: `NodeRegister.set_children_defaulted` is code of
this repository missing from src/ (register.py; only its call sites are
present, pyrunner.py lines 229 and 344).  Per the spec, failing node X causes
every strict descendant of X that has not yet run to become DEFAULTED: the
pending descendants of `x` move from PENDING to DEFAULTED. -/
def set_children_defaulted (es : List (Int × Int)) (reg : NodeRegister) (x : Int) : NodeRegister :=
  { reg with
    pending_nodes := reg.pending_nodes.filter (fun y => !(isDesc es x y)),
    defaulted_nodes := reg.defaulted_nodes ++ reg.pending_nodes.filter (fun y => isDesc es x y) }

/-- Controller state threaded through the scheduler loop of
`PyRunner.execute`: the register, every node's runtime state, the global
inter-launch bound `PyRunner._wait_until`, plus pure observations (`launched`
records calls of `ExecutionNode.execute` from the launch phase, `terminated`
records forced terminations, `checkpointed` records that `save_state` ran). -/
structure SchedulerState where
  register : NodeRegister
  nodes : Int → ExecutionNode
  sched_wait_until : Nat := 0
  launched : List Int := []
  terminated : List Int := []
  checkpointed : Bool := false

/-- Point update of the node map. -/
def updNode (f : Int → ExecutionNode) (n : Int) (nd : ExecutionNode) : Int → ExecutionNode :=
  fun m => if m = n then nd else f m

/-- REVIVE handling of one failed node (pyrunner.py lines 214-217):
`node.revive()`, remove from FAILED, add to PENDING. -/
def revive_failed_step (now : Nat) (st : SchedulerState) (n : Int) : SchedulerState :=
  { st with
    nodes := updNode st.nodes n ((st.nodes n).revive now),
    register := { st.register with
      failed_nodes := removeS n st.register.failed_nodes,
      pending_nodes := addS n st.register.pending_nodes } }

/-- REVIVE handling of one defaulted node (pyrunner.py lines 218-220):
remove from DEFAULTED, add to PENDING (no `revive()` call). -/
def revive_defaulted_step (st : SchedulerState) (n : Int) : SchedulerState :=
  { st with register := { st.register with
      defaulted_nodes := removeS n st.register.defaulted_nodes,
      pending_nodes := addS n st.register.pending_nodes } }

/-- The REVIVE block of the tick (pyrunner.py lines 213-220). -/
def revive_block (now : Nat) (st : SchedulerState) : SchedulerState :=
  let st1 := st.register.failed_nodes.foldl (revive_failed_step now) st
  st1.register.defaulted_nodes.foldl revive_defaulted_step st1

/-- Reaction of the poll phase to one node's poll result (pyrunner.py lines
224-233): positive code → FAILED plus cascade, negative sentinel → back to
PENDING, zero → COMPLETED, `none` → still running. -/
def poll_step (es : List (Int × Int)) (reg : NodeRegister) (n : Int) (r : Option Int) : NodeRegister :=
  match r with
  | none => reg
  | some rc =>
    let reg1 := { reg with running_nodes := removeS n reg.running_nodes }
    if rc > 0 then
      set_children_defaulted es { reg1 with failed_nodes := addS n reg1.failed_nodes } n
    else if rc < 0 then
      { reg1 with pending_nodes := addS n reg1.pending_nodes }
    else
      { reg1 with completed_nodes := addS n reg1.completed_nodes }

/-- The poll phase of the tick (pyrunner.py lines 222-233), iterating over a
snapshot of the RUNNING set; worker outcomes enter as the oracle `pollRes`. -/
def poll_loop (es : List (Int × Int)) (pollRes : Int → Option Int) (reg : NodeRegister) : NodeRegister :=
  reg.running_nodes.foldl (fun acc n => poll_step es acc n (pollRes n)) reg

/-- Launch configuration (config.py `launch_params`): `max_procs` (caps
concurrency when positive, -1 default = unlimited) and `time_between_tasks`. -/
structure LaunchParams where
  max_procs : Int := -1
  time_between_tasks : Nat := 0
  deriving DecidableEq

/-- The dependency gate of the launch phase (pyrunner.py lines 247-253): the
node is runnable unless some parent with id ≥ 0 is outside COMPLETED ∪ NORUN. -/
def parent_gate (es : List (Int × Int)) (reg : NodeRegister) (n : Int) : Bool :=
  (parents_of es n).all fun p =>
    decide (p < 0) || decide (p ∈ reg.completed_nodes) || decide (p ∈ reg.norun_nodes)

/-- The launch phase of the tick (pyrunner.py lines 236-258), iterating over
a snapshot of the PENDING set paired with the `time.time()` sample of each
consideration.  The concurrency-cap and inter-launch-interval checks break
the loop; a considered node first advances the global `_wait_until`, then the
dependency gate and `is_runnable` are evaluated, and only on success is the
node moved to RUNNING and `ExecutionNode.execute` invoked. -/
def launch_loop (lp : LaunchParams) (es : List (Int × Int)) (spawnOk : Int → Bool) :
    SchedulerState → List (Int × Nat) → SchedulerState
  | st, [] => st
  | st, (n, t) :: rest =>
    if lp.max_procs > 0 ∧ (st.register.running_nodes.length : Int) ≥ lp.max_procs then st
    else if t < st.sched_wait_until then st
    else
      let st1 := { st with sched_wait_until := t + lp.time_between_tasks }
      if parent_gate es st1.register n = true ∧ (st1.nodes n).is_runnable t = true then
        launch_loop lp es spawnOk
          { st1 with
            register := { st1.register with
              pending_nodes := removeS n st1.register.pending_nodes,
              running_nodes := addS n st1.register.running_nodes },
            nodes := updNode st1.nodes n ((st1.nodes n).execute t (spawnOk n)),
            launched := st1.launched ++ [n] } rest
      else launch_loop lp es spawnOk st1 rest

/-- One iteration of `PyRunner._abort_all_workers` (pyrunner.py lines
338-344): force-terminate the node, move it RUNNING → ABORTED, cascade its
not-yet-run descendants to DEFAULTED.  When `terminate` faults
(AttributeError on a node with no process attached) the exception
propagates: `none`. -/
def abort_worker_step (es : List (Int × Int)) (alive : Int → Bool)
    (st : SchedulerState) (n : Int) : Option SchedulerState :=
  match (st.nodes n).terminate (alive n) with
  | none => none
  | some p => some
      { st with
        nodes := updNode st.nodes n p.1,
        register := set_children_defaulted es
          { st.register with
            running_nodes := removeS n st.register.running_nodes,
            aborted_nodes := addS n st.register.aborted_nodes } n,
        terminated := st.terminated ++ [n] }

/-- The loop of `_abort_all_workers` over a RUNNING snapshot; a faulting
step aborts the whole loop with the exception (`none`). -/
def abort_fold (es : List (Int × Int)) (alive : Int → Bool) :
    SchedulerState → List Int → Option SchedulerState
  | st, [] => some st
  | st, n :: l =>
    match abort_worker_step es alive st n with
    | none => none
    | some st1 => abort_fold es alive st1 l

/-- `PyRunner._abort_all_workers` (pyrunner.py lines 337-346): handle every
node of a RUNNING snapshot, then checkpoint (`save_state(False)`).  An
AttributeError from `terminate` propagates out (the surrounding `try` in
`execute` catches only KeyboardInterrupt). -/
def abort_all_workers (es : List (Int × Int)) (alive : Int → Bool)
    (st : SchedulerState) : Option SchedulerState :=
  match abort_fold es alive st st.register.running_nodes with
  | none => none
  | some st1 => some { st1 with checkpointed := true }

/-- External observations consumed by one tick: the ABORT/REVIVE signal
checks, the `time.time()` sample of the revive block, the poll outcome of
each running node, process aliveness, spawn success, and the `time.time()`
samples of the launch-phase considerations. -/
structure TickOracle where
  abort_sig : Bool := false
  revive_sig : Bool := false
  now : Nat := 0
  pollRes : Int → Option Int := fun _ => none
  alive : Int → Bool := fun _ => true
  spawnOk : Int → Bool := fun _ => true
  times : List Nat := []

/-- One iteration of the execution loop of `PyRunner.execute` (pyrunner.py
lines 202-283): consume PULSE (no-op on the model state), handle ABORT
(terminate everything and return -1), then the REVIVE block, the poll phase
and the launch phase.  The outer `none` models an uncaught exception
escaping the tick (the AttributeError of `_abort_all_workers`); otherwise
`some (st, r)` where `some` in `r` means the loop returned early with that
value. -/
def scheduler_tick (lp : LaunchParams) (es : List (Int × Int))
    (st : SchedulerState) (o : TickOracle) : Option (SchedulerState × Option Int) :=
  if o.abort_sig then
    match abort_all_workers es o.alive st with
    | none => none
    | some st1 => some (st1, some (-1))
  else
    let st1 := if o.revive_sig then revive_block o.now st else st
    let st2 := { st1 with register := poll_loop es o.pollRes st1.register }
    let st3 := launch_loop lp es o.spawnOk st2 (st2.register.pending_nodes.zip o.times)
    some (st3, none)

/-- The execution loop of `PyRunner.execute` (pyrunner.py lines 202-335):
tick while RUNNING ∪ PENDING is nonempty, feeding one oracle per tick; an
abort returns -1 (flag `true`), normal termination returns the number of
FAILED nodes (flag `false`); `none` when no value is returned — either the
oracle list is exhausted with the loop still live, or a tick raised an
uncaught exception. -/
def scheduler_run (lp : LaunchParams) (es : List (Int × Int)) :
    SchedulerState → List TickOracle → Option (SchedulerState × Int × Bool)
  | st, [] =>
    if st.register.running_nodes = [] ∧ st.register.pending_nodes = [] then
      some (st, ((st.register.failed_nodes.length : Int), false))
    else none
  | st, o :: rest =>
    if st.register.running_nodes = [] ∧ st.register.pending_nodes = [] then
      some (st, ((st.register.failed_nodes.length : Int), false))
    else
      match scheduler_tick lp es st o with
      | none => none
      | some (st1, some r) => some (st1, (r, true))
      | some (st1, none) => scheduler_run lp es st1 rest

/-- Fixture: a freshly constructed node (all defaults, never launched). -/
def nodeFresh : ExecutionNode :=
  {}

/-- Fixture: a node on attempt 1 of 3 with a 50-second timeout whose worker
process is still alive when polled at time 100. -/
def nodeTimedOut : ExecutionNode :=
  { attempts := 1, max_attempts := 3, proc := true, start_time := 0, timeout := some 50 }

/-- Fixture: a register in which node 2 is running and node 3 is pending. -/
def regRun2 : NodeRegister :=
  { running_nodes := [2], pending_nodes := [3] }

/-- Fixture: a node map giving node 2 three recorded attempts. -/
def nodesAtt3 : Int → ExecutionNode :=
  fun n => if n = 2 then { attempts := 3 } else {}

/-- Fixture: a scheduler state whose register holds node 2 in DEFAULTED while
node 2 has a nonzero attempt counter. -/
def stDefaulted2 : SchedulerState :=
  { register := { defaulted_nodes := [2] }, nodes := nodesAtt3 }

/-- Fixture: a scheduler state with node 1 FAILED after two attempts and
node 2 DEFAULTED after three attempts. -/
def stRevive : SchedulerState :=
  { register := { failed_nodes := [1], defaulted_nodes := [2] }, nodes := nodesAtt3 }

/-- Fixture: a scheduler state with node 2 RUNNING and node 3 PENDING while
node 2 has no worker process attached (as after a failed spawn). -/
def stAbort : SchedulerState :=
  { register := regRun2, nodes := nodesAtt3 }

/-- Fixture: a node map in which node 2 carries a live worker process. -/
def nodesProc2 : Int → ExecutionNode :=
  fun n => if n = 2 then { attempts := 1, proc := true } else {}

/-- Fixture: a scheduler state with node 2 RUNNING (process attached) and
node 3 PENDING. -/
def stAbortOk : SchedulerState :=
  { register := regRun2, nodes := nodesProc2 }

/-- Fixture: a tick oracle carrying an ABORT signal. -/
def oAbort : TickOracle :=
  { abort_sig := true }

/-- Fixture: a scheduler state with node 2 PENDING whose only parent 1 is
COMPLETED. -/
def stLaunch : SchedulerState :=
  { register := { pending_nodes := [2], completed_nodes := [1] }, nodes := nodesAtt3 }

/-- Fixture: a terminated run state with two FAILED nodes and nothing left
to do. -/
def stDone : SchedulerState :=
  { register := { failed_nodes := [4, 7] }, nodes := nodesAtt3 }

/-- Membership after Python set insertion. -/
theorem mem_addS {x y : Int} {s : List Int} : x ∈ addS y s ↔ x = y ∨ x ∈ s := by
  unfold addS
  split
  · rename_i h
    constructor
    · exact Or.inr
    · rintro (rfl | hx)
      · exact h
      · exact hx
  · simp [List.mem_cons]

/-- Membership after Python set removal. -/
theorem mem_removeS {x y : Int} {s : List Int} : x ∈ removeS y s ↔ x ∈ s ∧ x ≠ y := by
  simp [removeS, List.mem_filter]

/-- The dependency gate reads only the COMPLETED and NORUN sets. -/
theorem parent_gate_congr (es : List (Int × Int)) {r1 r2 : NodeRegister} (n : Int)
    (hc : r1.completed_nodes = r2.completed_nodes)
    (hn : r1.norun_nodes = r2.norun_nodes) :
    parent_gate es r1 n = parent_gate es r2 n := by
  simp [parent_gate, hc, hn]

/-- C9: at startup the process emits PULSE, waits, and fails with a
duplicate-run error when a live instance cleared it; otherwise it proceeds
and clears all stale signals.  The claim also says the failure can be
overridden by the allow-duplicate-jobs setting, but `process_signals` never
reads that configuration value: even with it set to true, a detected live
instance still raises the duplicate-run error, contradicting the repository's
own help text for `--allow-duplicate-jobs`. -/
theorem c9_allow_duplicate_jobs_ignored :
    process_signals false false true {} true = StartupOutcome.duplicateRunError ∧
    process_signals false false false {} true = StartupOutcome.duplicateRunError ∧
    process_signals false false true {} false = StartupOutcome.started {} ∧
    process_signals false false true { abort := true, revive := true } false
      = StartupOutcome.started {} := by
  decide

/-- C7 counterexample: the sentinel `poll` returns for a node that was never
launched and the one reported after a spawn exception are the same value
(901), and the code reported for a timeout kill equals the one for an
explicit terminate (907), so the four reserved sentinels are not pairwise
distinct. -/
theorem c7_counterexample_sentinels_collide :
    ((nodeFresh.execute 0 false).poll 1 false false 0).2 = (nodeFresh.poll 1 false false 0).2 ∧
    ((nodeFresh.execute 0 false).poll 1 false false 0).2 = some 901 ∧
    (nodeTimedOut.poll 100 false true 0).2
      = (nodeTimedOut.terminate true).map (fun p => p.2) ∧
    (nodeTimedOut.poll 100 false true 0).2 = some 907 := by
  decide

/-- C7 amended: the reserved positive sentinels take exactly two values:
poll of a node with no process attached (never launched, or spawn failed so
`_proc` was never set) returns 901, while both a timeout kill and a
completed explicit terminate report 907 (an explicit terminate on a node
with no process attached instead raises AttributeError); the two values are
distinct from each other. -/
theorem c7_reserved_sentinels_pair :
    (∀ (nd : ExecutionNode) (now : Nat) (w a : Bool) (r : Int),
        nd.proc = false → (nd.poll now w a r).2 = some 901) ∧
    (∀ (nd : ExecutionNode) (a : Bool), nd.proc = true →
        (nd.terminate a).map (fun p => p.2) = some 907) ∧
    (∀ (nd : ExecutionNode) (a : Bool), nd.proc = false → nd.terminate a = none) ∧
    (∀ (nd : ExecutionNode) (now : Nat) (r : Int), nd.proc = true →
        timeout_exceeded nd now = true → (nd.poll now false true r).2 = some 907) ∧
    (901 : Int) ≠ 907 := by
  refine ⟨?_, ?_, ?_, ?_, by decide⟩
  · intro nd now w a r hp
    simp [ExecutionNode.poll, hp]
  · intro nd a hp
    simp [ExecutionNode.terminate, ExecutionNode.terminate_live, hp]
  · intro nd a hp
    simp [ExecutionNode.terminate, hp]
  · intro nd now r hp ht
    simp [ExecutionNode.poll, hp, ht, ExecutionNode.terminate_live]

/-- C7 witness: the amended statement applied at concrete inputs. -/
theorem c7_witness :
    nodeFresh.proc = false ∧ (nodeFresh.poll 3 false false 0).2 = some 901 ∧
    nodeTimedOut.proc = true ∧ timeout_exceeded nodeTimedOut 100 = true ∧
    (nodeTimedOut.poll 100 false true 0).2 = some 907 ∧
    (nodeTimedOut.terminate true).map (fun p => p.2) = some 907 ∧
    nodeFresh.terminate true = none :=
  ⟨by decide, c7_reserved_sentinels_pair.1 nodeFresh 3 false false 0 (by decide),
   by decide, by decide,
   c7_reserved_sentinels_pair.2.2.2.1 nodeTimedOut 100 0 (by decide) (by decide),
   c7_reserved_sentinels_pair.2.1 nodeTimedOut true (by decide),
   c7_reserved_sentinels_pair.2.2.1 nodeFresh true (by decide)⟩

/-- C6 counterexample: node 2 is on attempt 1 of 3 (attempts remain), yet
when its running time exceeds the 50-second timeout, `poll` reports the
positive terminate sentinel 907 rather than the negative retry sentinel, and
the scheduler moves it to FAILED instead of re-queueing it to PENDING. -/
theorem c6_counterexample_timeout_not_retried :
    nodeTimedOut.attempts < nodeTimedOut.max_attempts ∧
    (nodeTimedOut.poll 100 false true 0).2 = some 907 ∧
    (nodeTimedOut.poll 100 false true 0).2 ≠ some (-1) ∧
    (2 : Int) ∈ (poll_step [] regRun2 2 (some 907)).failed_nodes ∧
    (2 : Int) ∉ (poll_step [] regRun2 2 (some 907)).pending_nodes := by
  decide

/-- C6 amended: a node whose running time exceeds its timeout at poll is
force-terminated and reports the terminate sentinel 907 irrespective of its
remaining attempts; the scheduler then classifies the positive code as a
permanent failure (FAILED, with cascade), so the retry policy does not apply
to timeout kills. -/
theorem c6_timeout_reports_terminate_sentinel (nd : ExecutionNode) (now : Nat) (r : Int)
    (hp : nd.proc = true) (ht : timeout_exceeded nd now = true) :
    (nd.poll now false true r).2 = some 907 ∧
    (∀ (es : List (Int × Int)) (reg : NodeRegister) (n : Int),
        n ∈ (poll_step es reg n (some 907)).failed_nodes ∧
        (n ∈ (poll_step es reg n (some 907)).pending_nodes →
          n ∈ reg.pending_nodes)) := by
  constructor
  · simp [ExecutionNode.poll, hp, ht, ExecutionNode.terminate_live]
  · intro es reg n
    constructor
    · simp only [poll_step, set_children_defaulted]
      norm_num
      exact mem_addS.mpr (Or.inl rfl)
    · intro h
      simp only [poll_step, set_children_defaulted] at h
      norm_num at h
      exact h.1

/-- C6 witness: the amended statement applied at a concrete timed-out node. -/
theorem c6_witness :
    nodeTimedOut.proc = true ∧ timeout_exceeded nodeTimedOut 100 = true ∧
    (nodeTimedOut.poll 100 false true 0).2 = some 907 :=
  ⟨by decide, by decide,
   (c6_timeout_reports_terminate_sentinel nodeTimedOut 100 0 (by decide) (by decide)).1⟩

/-- C4 counterexample: node 2 sits in the DEFAULTED set with an attempt
counter of 3; consuming REVIVE moves it to PENDING but its attempt counter
stays 3, not 0 — the revive block calls `revive()` (which resets attempts)
only for FAILED nodes, never for DEFAULTED ones. -/
theorem c4_counterexample_defaulted_attempts_not_reset :
    (2 : Int) ∈ stDefaulted2.register.defaulted_nodes ∧
    (2 : Int) ∈ (revive_block 0 stDefaulted2).register.pending_nodes ∧
    ((revive_block 0 stDefaulted2).nodes 2).attempts = 3 ∧
    ¬ ((revive_block 0 stDefaulted2).nodes 2).attempts = 0 := by
  decide

/-- A failed-node attempt counter already at zero stays zero through the
revive fold. -/
theorem rfold_att0 (now : Nat) :
    ∀ (l : List Int) (st : SchedulerState) (x : Int),
      (st.nodes x).attempts = 0 →
      ((l.foldl (revive_failed_step now) st).nodes x).attempts = 0
  | [], _, _, h => h
  | m :: l, st, x, h => by
    simp only [List.foldl_cons]
    refine rfold_att0 now l _ x ?_
    by_cases hx : x = m
    · subst hx; simp [revive_failed_step, updNode, ExecutionNode.revive]
    · simpa [revive_failed_step, updNode, hx] using h

/-- Every node of the revived list ends the fold with attempt counter 0. -/
theorem rfold_mem_att0 (now : Nat) :
    ∀ (l : List Int) (st : SchedulerState) (n : Int), n ∈ l →
      ((l.foldl (revive_failed_step now) st).nodes n).attempts = 0
  | [], _, n, h => absurd h (List.not_mem_nil n)
  | m :: l, st, n, h => by
    simp only [List.foldl_cons]
    rcases List.mem_cons.mp h with rfl | hl
    · exact rfold_att0 now l _ n (by simp [revive_failed_step, updNode, ExecutionNode.revive])
    · exact rfold_mem_att0 now l _ n hl

/-- The revive fold only removes elements of the folded list from FAILED. -/
theorem rfold_failed (now : Nat) :
    ∀ (l : List Int) (st : SchedulerState) (x : Int),
      x ∈ (l.foldl (revive_failed_step now) st).register.failed_nodes →
      x ∈ st.register.failed_nodes ∧ x ∉ l
  | [], _, x, h => ⟨h, List.not_mem_nil x⟩
  | m :: l, st, x, h => by
    simp only [List.foldl_cons] at h
    obtain ⟨h1, h2⟩ := rfold_failed now l _ x h
    have h1' : x ∈ removeS m st.register.failed_nodes := h1
    have h3 := mem_removeS.mp h1'
    exact ⟨h3.1, by simp [List.mem_cons, h3.2, h2]⟩

/-- PENDING membership is preserved by the revive fold. -/
theorem rfold_pend_mono (now : Nat) :
    ∀ (l : List Int) (st : SchedulerState) (x : Int),
      x ∈ st.register.pending_nodes →
      x ∈ (l.foldl (revive_failed_step now) st).register.pending_nodes
  | [], _, _, h => h
  | m :: l, st, x, h =>
    rfold_pend_mono now l _ x (mem_addS.mpr (Or.inr h))

/-- Every node of the revived list ends the fold in PENDING. -/
theorem rfold_mem_pend (now : Nat) :
    ∀ (l : List Int) (st : SchedulerState) (n : Int), n ∈ l →
      n ∈ (l.foldl (revive_failed_step now) st).register.pending_nodes
  | [], _, n, h => absurd h (List.not_mem_nil n)
  | m :: l, st, n, h => by
    simp only [List.foldl_cons]
    rcases List.mem_cons.mp h with rfl | hl
    · exact rfold_pend_mono now l _ n (mem_addS.mpr (Or.inl rfl))
    · exact rfold_mem_pend now l _ n hl

/-- The revive fold leaves the DEFAULTED set untouched. -/
theorem rfold_def_eq (now : Nat) :
    ∀ (l : List Int) (st : SchedulerState),
      (l.foldl (revive_failed_step now) st).register.defaulted_nodes
        = st.register.defaulted_nodes
  | [], _ => rfl
  | m :: l, st => by
    simp only [List.foldl_cons]
    exact rfold_def_eq now l _

/-- The revive fold leaves nodes outside the folded list untouched. -/
theorem rfold_nodes_not_mem (now : Nat) :
    ∀ (l : List Int) (st : SchedulerState) (x : Int), x ∉ l →
      (l.foldl (revive_failed_step now) st).nodes x = st.nodes x
  | [], _, _, _ => rfl
  | m :: l, st, x, h => by
    simp only [List.foldl_cons]
    have hx : x ≠ m := fun e => h (e ▸ List.mem_cons_self m l)
    have hstep : (revive_failed_step now st m).nodes x = st.nodes x := by
      simp [revive_failed_step, updNode, hx]
    rw [rfold_nodes_not_mem now l _ x (fun hl => h (List.mem_cons_of_mem m hl)), hstep]

/-- The defaulted-to-pending fold never touches node runtime states. -/
theorem dfold_nodes :
    ∀ (l : List Int) (st : SchedulerState),
      (l.foldl revive_defaulted_step st).nodes = st.nodes
  | [], _ => rfl
  | m :: l, st => by
    simp only [List.foldl_cons]
    exact dfold_nodes l _

/-- The defaulted-to-pending fold leaves FAILED untouched. -/
theorem dfold_failed_eq :
    ∀ (l : List Int) (st : SchedulerState),
      (l.foldl revive_defaulted_step st).register.failed_nodes
        = st.register.failed_nodes
  | [], _ => rfl
  | m :: l, st => by
    simp only [List.foldl_cons]
    exact dfold_failed_eq l _

/-- The defaulted-to-pending fold only removes folded elements from DEFAULTED. -/
theorem dfold_defaulted :
    ∀ (l : List Int) (st : SchedulerState) (x : Int),
      x ∈ (l.foldl revive_defaulted_step st).register.defaulted_nodes →
      x ∈ st.register.defaulted_nodes ∧ x ∉ l
  | [], _, x, h => ⟨h, List.not_mem_nil x⟩
  | m :: l, st, x, h => by
    simp only [List.foldl_cons] at h
    obtain ⟨h1, h2⟩ := dfold_defaulted l _ x h
    have h1' : x ∈ removeS m st.register.defaulted_nodes := h1
    have h3 := mem_removeS.mp h1'
    exact ⟨h3.1, by simp [List.mem_cons, h3.2, h2]⟩

/-- PENDING membership is preserved by the defaulted-to-pending fold. -/
theorem dfold_pend_mono :
    ∀ (l : List Int) (st : SchedulerState) (x : Int),
      x ∈ st.register.pending_nodes →
      x ∈ (l.foldl revive_defaulted_step st).register.pending_nodes
  | [], _, _, h => h
  | m :: l, st, x, h =>
    dfold_pend_mono l _ x (mem_addS.mpr (Or.inr h))

/-- Every node of the defaulted list ends the fold in PENDING. -/
theorem dfold_mem_pend :
    ∀ (l : List Int) (st : SchedulerState) (n : Int), n ∈ l →
      n ∈ (l.foldl revive_defaulted_step st).register.pending_nodes
  | [], _, n, h => absurd h (List.not_mem_nil n)
  | m :: l, st, n, h => by
    simp only [List.foldl_cons]
    rcases List.mem_cons.mp h with rfl | hl
    · exact dfold_pend_mono l _ n (mem_addS.mpr (Or.inl rfl))
    · exact dfold_mem_pend l _ n hl

/-- C4 amended: consuming REVIVE empties FAILED and DEFAULTED and moves
every node of both sets to PENDING; the attempt counter is reset to 0 for
the FAILED nodes only — DEFAULTED nodes are moved without their node state
(in particular their attempt counter) being touched. -/
theorem c4_revive_moves_failed_and_defaulted_to_pending (now : Nat) (st : SchedulerState) :
    (revive_block now st).register.failed_nodes = [] ∧
    (revive_block now st).register.defaulted_nodes = [] ∧
    (∀ n, n ∈ st.register.failed_nodes →
        n ∈ (revive_block now st).register.pending_nodes ∧
        ((revive_block now st).nodes n).attempts = 0) ∧
    (∀ n, n ∈ st.register.defaulted_nodes →
        n ∈ (revive_block now st).register.pending_nodes) ∧
    (∀ n, n ∉ st.register.failed_nodes →
        (revive_block now st).nodes n = st.nodes n) := by
  have hrb : revive_block now st =
      (st.register.failed_nodes.foldl (revive_failed_step now) st).register.defaulted_nodes.foldl
        revive_defaulted_step
        (st.register.failed_nodes.foldl (revive_failed_step now) st) := rfl
  rw [hrb]
  refine ⟨?_, ?_, ?_, ?_, ?_⟩
  · rw [dfold_failed_eq]
    rw [List.eq_nil_iff_forall_not_mem]
    intro x hx
    exact (rfold_failed now _ st x hx).2 (rfold_failed now _ st x hx).1
  · rw [List.eq_nil_iff_forall_not_mem]
    intro x hx
    exact (dfold_defaulted _ _ x hx).2 (dfold_defaulted _ _ x hx).1
  · intro n hn
    constructor
    · exact dfold_pend_mono _ _ n (rfold_mem_pend now _ st n hn)
    · rw [dfold_nodes]
      exact rfold_mem_att0 now _ st n hn
  · intro n hn
    refine dfold_mem_pend _ _ n ?_
    rw [rfold_def_eq]
    exact hn
  · intro n hn
    rw [dfold_nodes]
    exact rfold_nodes_not_mem now _ st n hn

/-- C4 witness: the amended statement applied at a concrete state with one
FAILED node (1, two attempts) and one DEFAULTED node (2, three attempts). -/
theorem c4_witness :
    (1 : Int) ∈ stRevive.register.failed_nodes ∧
    (2 : Int) ∈ stRevive.register.defaulted_nodes ∧
    (1 : Int) ∈ (revive_block 4 stRevive).register.pending_nodes ∧
    ((revive_block 4 stRevive).nodes 1).attempts = 0 ∧
    (2 : Int) ∈ (revive_block 4 stRevive).register.pending_nodes :=
  ⟨by decide, by decide,
   ((c4_revive_moves_failed_and_defaulted_to_pending 4 stRevive).2.2.1 1 (by decide)).1,
   ((c4_revive_moves_failed_and_defaulted_to_pending 4 stRevive).2.2.1 1 (by decide)).2,
   (c4_revive_moves_failed_and_defaulted_to_pending 4 stRevive).2.2.2.1 2 (by decide)⟩

/-- A positive poll result sends the polled node to FAILED. -/
theorem poll_step_pos_mem_failed (es : List (Int × Int)) (reg : NodeRegister) (n : Int)
    {rc : Int} (h : 0 < rc) :
    n ∈ (poll_step es reg n (some rc)).failed_nodes := by
  simp only [poll_step, set_children_defaulted]
  rw [if_pos h]
  exact mem_addS.mpr (Or.inl rfl)

/-- C8: an exception during spawn setup in `ExecutionNode.execute` is caught
and logged to the node's log file instead of propagating (the model function
is total and appends a log line); the node keeps no process handle, so the
next `poll` reports the reserved sentinel 901, which the scheduler classifies
as a node failure (FAILED) while the tick completes normally (no early
return when no abort signal is set). -/
theorem c8_launch_error_logged_and_failed (nd : ExecutionNode) (t u : Nat)
    (es : List (Int × Int)) (reg : NodeRegister) (n : Int)
    (hp : nd.proc = false) (ht : nd.wait_until ≤ t) :
    (nd.execute t false).proc = false ∧
    (nd.execute t false).log = nd.log ++ ["launch-error-logged"] ∧
    (nd.execute t false).attempts = nd.attempts + 1 ∧
    ((nd.execute t false).poll u false false 0).2 = some 901 ∧
    n ∈ (poll_step es reg n (some 901)).failed_nodes ∧
    (∀ (lp : LaunchParams) (st : SchedulerState) (o : TickOracle),
        o.abort_sig = false →
        (scheduler_tick lp es st o).map (fun q => q.2) = some none) := by
  have hrun : nd.is_runnable t = true := by
    simp [ExecutionNode.is_runnable, ht]
  have hproc : (nd.execute t false).proc = false := by
    by_cases h0 : nd.start_time = 0 <;>
      simp [ExecutionNode.execute, hrun, h0, hp]
  refine ⟨hproc, ?_, ?_, ?_, ?_, ?_⟩
  · by_cases h0 : nd.start_time = 0 <;>
      simp [ExecutionNode.execute, hrun, h0]
  · by_cases h0 : nd.start_time = 0 <;>
      simp [ExecutionNode.execute, hrun, h0]
  · simp [ExecutionNode.poll, hproc]
  · exact poll_step_pos_mem_failed es reg n (by norm_num)
  · intro lp st o ho
    simp [scheduler_tick, ho]

/-- C8 witness: the statement applied to a fresh node whose spawn fails at
time 0, polled at time 1, with node 5 classified in an empty register. -/
theorem c8_witness :
    nodeFresh.proc = false ∧ nodeFresh.wait_until ≤ 0 ∧
    ((nodeFresh.execute 0 false).poll 1 false false 0).2 = some 901 ∧
    (nodeFresh.execute 0 false).log = ["launch-error-logged"] :=
  ⟨by decide, by decide,
   (c8_launch_error_logged_and_failed nodeFresh 0 1 [] {} 5 (by decide)
     (by decide)).2.2.2.1,
   (c8_launch_error_logged_and_failed nodeFresh 0 1 [] {} 5 (by decide)
     (by decide)).2.1⟩

/-- Field equations of one successful abort step. -/
theorem abort_step_spec {es : List (Int × Int)} {alive : Int → Bool}
    {st st2 : SchedulerState} {n : Int}
    (h : abort_worker_step es alive st n = some st2) :
    st2.register.running_nodes = removeS n st.register.running_nodes ∧
    st2.register.aborted_nodes = addS n st.register.aborted_nodes ∧
    st2.register.pending_nodes
      = st.register.pending_nodes.filter (fun y => !(isDesc es n y)) ∧
    st2.register.defaulted_nodes
      = st.register.defaulted_nodes
          ++ st.register.pending_nodes.filter (fun y => isDesc es n y) ∧
    st2.terminated = st.terminated ++ [n] ∧
    (∀ x, x ≠ n → st2.nodes x = st.nodes x) := by
  unfold abort_worker_step at h
  rcases hterm : (st.nodes n).terminate (alive n) with _ | p
  · rw [hterm] at h
    exact Option.noConfusion h
  · rw [hterm] at h
    simp only at h
    injection h with h'
    subst h'
    refine ⟨rfl, rfl, rfl, rfl, rfl, ?_⟩
    intro x hx
    simp [updNode, hx]

/-- An abort step cannot fault on a node with a worker process attached. -/
theorem abort_step_isSome {es : List (Int × Int)} {alive : Int → Bool}
    {st : SchedulerState} {n : Int} (hp : (st.nodes n).proc = true) :
    ∃ st2, abort_worker_step es alive st n = some st2 := by
  have hterm : (st.nodes n).terminate (alive n)
      = some ((st.nodes n).terminate_live (alive n)) := by
    unfold ExecutionNode.terminate
    rw [hp]
    simp
  exact ⟨_, by unfold abort_worker_step; rw [hterm]⟩

/-- The abort loop completes when the RUNNING snapshot has no duplicates and
every node of it carries a worker process. -/
theorem abort_fold_isSome (es : List (Int × Int)) (alive : Int → Bool) :
    ∀ (l : List Int) (st : SchedulerState), l.Nodup →
      (∀ n ∈ l, (st.nodes n).proc = true) →
      ∃ st1, abort_fold es alive st l = some st1
  | [], st, _, _ => ⟨st, rfl⟩
  | m :: l, st, hnd, hp => by
    obtain ⟨st2, hst2⟩ := @abort_step_isSome es alive st m (hp m (List.mem_cons_self m l))
    have hnd' := List.nodup_cons.mp hnd
    have hp' : ∀ n ∈ l, (st2.nodes n).proc = true := by
      intro n hn
      rw [(abort_step_spec hst2).2.2.2.2.2 n (fun he => hnd'.1 (he ▸ hn))]
      exact hp n (List.mem_cons_of_mem m hn)
    obtain ⟨st1, hst1⟩ := abort_fold_isSome es alive l st2 hnd'.2 hp'
    have hstep : abort_fold es alive st (m :: l) = abort_fold es alive st2 l := by
      simp only [abort_fold]
      rw [hst2]
    exact ⟨st1, by rw [hstep]; exact hst1⟩

/-- A completed abort loop only removes elements of the folded list from
RUNNING. -/
theorem abort_fold_running (es : List (Int × Int)) (alive : Int → Bool) :
    ∀ (l : List Int) (st st1 : SchedulerState),
      abort_fold es alive st l = some st1 →
      ∀ x, x ∈ st1.register.running_nodes →
        x ∈ st.register.running_nodes ∧ x ∉ l
  | [], st, st1, h, x, hx => by
    injection h with h'
    subst h'
    exact ⟨hx, List.not_mem_nil x⟩
  | m :: l, st, st1, h, x, hx => by
    simp only [abort_fold] at h
    rcases hstep : abort_worker_step es alive st m with _ | st2
    · rw [hstep] at h
      exact Option.noConfusion h
    · rw [hstep] at h
      simp only at h
      obtain ⟨h1, h2⟩ := abort_fold_running es alive l st2 st1 h x hx
      rw [(abort_step_spec hstep).1] at h1
      have h3 := mem_removeS.mp h1
      exact ⟨h3.1, by simp [List.mem_cons, h3.2, h2]⟩

/-- ABORTED membership is preserved by a completed abort loop. -/
theorem abort_fold_aborted_mono (es : List (Int × Int)) (alive : Int → Bool) :
    ∀ (l : List Int) (st st1 : SchedulerState),
      abort_fold es alive st l = some st1 →
      ∀ x, x ∈ st.register.aborted_nodes → x ∈ st1.register.aborted_nodes
  | [], st, st1, h, x, hx => by
    injection h with h'
    subst h'
    exact hx
  | m :: l, st, st1, h, x, hx => by
    simp only [abort_fold] at h
    rcases hstep : abort_worker_step es alive st m with _ | st2
    · rw [hstep] at h
      exact Option.noConfusion h
    · rw [hstep] at h
      simp only at h
      refine abort_fold_aborted_mono es alive l st2 st1 h x ?_
      rw [(abort_step_spec hstep).2.1]
      exact mem_addS.mpr (Or.inr hx)

/-- Every node of the snapshot ends a completed abort loop in ABORTED. -/
theorem abort_fold_mem_aborted (es : List (Int × Int)) (alive : Int → Bool) :
    ∀ (l : List Int) (st st1 : SchedulerState),
      abort_fold es alive st l = some st1 →
      ∀ n ∈ l, n ∈ st1.register.aborted_nodes
  | [], _, _, _, n, hn => absurd hn (List.not_mem_nil n)
  | m :: l, st, st1, h, n, hn => by
    simp only [abort_fold] at h
    rcases hstep : abort_worker_step es alive st m with _ | st2
    · rw [hstep] at h
      exact Option.noConfusion h
    · rw [hstep] at h
      simp only at h
      rcases List.mem_cons.mp hn with rfl | hl
      · refine abort_fold_aborted_mono es alive l st2 st1 h n ?_
        rw [(abort_step_spec hstep).2.1]
        exact mem_addS.mpr (Or.inl rfl)
      · exact abort_fold_mem_aborted es alive l st2 st1 h n hl

/-- Recorded terminations are preserved by a completed abort loop. -/
theorem abort_fold_term_mono (es : List (Int × Int)) (alive : Int → Bool) :
    ∀ (l : List Int) (st st1 : SchedulerState),
      abort_fold es alive st l = some st1 →
      ∀ x, x ∈ st.terminated → x ∈ st1.terminated
  | [], st, st1, h, x, hx => by
    injection h with h'
    subst h'
    exact hx
  | m :: l, st, st1, h, x, hx => by
    simp only [abort_fold] at h
    rcases hstep : abort_worker_step es alive st m with _ | st2
    · rw [hstep] at h
      exact Option.noConfusion h
    · rw [hstep] at h
      simp only at h
      refine abort_fold_term_mono es alive l st2 st1 h x ?_
      rw [(abort_step_spec hstep).2.2.2.2.1]
      exact List.mem_append_left _ hx

/-- Every node of the snapshot is recorded as force-terminated by a
completed abort loop. -/
theorem abort_fold_mem_term (es : List (Int × Int)) (alive : Int → Bool) :
    ∀ (l : List Int) (st st1 : SchedulerState),
      abort_fold es alive st l = some st1 →
      ∀ n ∈ l, n ∈ st1.terminated
  | [], _, _, _, n, hn => absurd hn (List.not_mem_nil n)
  | m :: l, st, st1, h, n, hn => by
    simp only [abort_fold] at h
    rcases hstep : abort_worker_step es alive st m with _ | st2
    · rw [hstep] at h
      exact Option.noConfusion h
    · rw [hstep] at h
      simp only at h
      rcases List.mem_cons.mp hn with rfl | hl
      · refine abort_fold_term_mono es alive l st2 st1 h n ?_
        rw [(abort_step_spec hstep).2.2.2.2.1]
        exact List.mem_append_right _ (List.mem_singleton.mpr rfl)
      · exact abort_fold_mem_term es alive l st2 st1 h n hl

/-- DEFAULTED membership is preserved by a completed abort loop. -/
theorem abort_fold_def_mono (es : List (Int × Int)) (alive : Int → Bool) :
    ∀ (l : List Int) (st st1 : SchedulerState),
      abort_fold es alive st l = some st1 →
      ∀ x, x ∈ st.register.defaulted_nodes → x ∈ st1.register.defaulted_nodes
  | [], st, st1, h, x, hx => by
    injection h with h'
    subst h'
    exact hx
  | m :: l, st, st1, h, x, hx => by
    simp only [abort_fold] at h
    rcases hstep : abort_worker_step es alive st m with _ | st2
    · rw [hstep] at h
      exact Option.noConfusion h
    · rw [hstep] at h
      simp only at h
      refine abort_fold_def_mono es alive l st2 st1 h x ?_
      rw [(abort_step_spec hstep).2.2.2.1]
      exact List.mem_append_left _ hx

/-- Cascade of a completed abort loop: every pending strict descendant of a
node in the folded snapshot ends the loop in DEFAULTED. -/
theorem abort_fold_cascade (es : List (Int × Int)) (alive : Int → Bool) :
    ∀ (l : List Int) (st st1 : SchedulerState),
      abort_fold es alive st l = some st1 →
      ∀ n ∈ l, ∀ d, isDesc es n d = true → d ∈ st.register.pending_nodes →
        d ∈ st1.register.defaulted_nodes
  | [], _, _, _, n, hn, _, _, _ => absurd hn (List.not_mem_nil n)
  | m :: l, st, st1, h, n, hn, d, hdesc, hd => by
    simp only [abort_fold] at h
    rcases hstep : abort_worker_step es alive st m with _ | st2
    · rw [hstep] at h
      exact Option.noConfusion h
    · rw [hstep] at h
      simp only at h
      obtain ⟨-, -, hpend, hdef, -, -⟩ := abort_step_spec hstep
      rcases List.mem_cons.mp hn with rfl | hl
      · refine abort_fold_def_mono es alive l st2 st1 h d ?_
        rw [hdef]
        exact List.mem_append_right _ (List.mem_filter.mpr ⟨hd, hdesc⟩)
      · by_cases hdm : isDesc es m d = true
        · refine abort_fold_def_mono es alive l st2 st1 h d ?_
          rw [hdef]
          exact List.mem_append_right _ (List.mem_filter.mpr ⟨hd, hdm⟩)
        · refine abort_fold_cascade es alive l st2 st1 h n hl d hdesc ?_
          rw [hpend]
          exact List.mem_filter.mpr ⟨hd, by simp [Bool.eq_false_iff.mpr hdm]⟩

/-- C3 counterexample: the claim fails on the code because `terminate`
dereferences `self._proc` without a guard (node.py line 194).  Node 2 sits
in RUNNING with no process attached — the state left by a failed spawn
before its first poll (pyrunner.py line 258 adds the node to RUNNING even
when `execute` caught a spawn exception) — so consuming ABORT makes
`_abort_all_workers` raise AttributeError: the tick produces no ABORTED
marking, no checkpoint and no -1. -/
theorem c3_counterexample_abort_crashes_without_proc :
    (2 : Int) ∈ stAbort.register.running_nodes ∧
    (stAbort.nodes 2).proc = false ∧
    (stAbort.nodes 2).terminate (oAbort.alive 2) = none ∧
    abort_all_workers [(2, 3)] oAbort.alive stAbort = none ∧
    scheduler_tick {} [(2, 3)] stAbort oAbort = none :=
  ⟨by decide, by decide, by decide, rfl, rfl⟩

/-- C3 amended: when ABORT is consumed while nodes are RUNNING and every
RUNNING node still has a worker process attached (and the RUNNING snapshot
is duplicate-free, as a Python set is), the abort handler completes: every
RUNNING node is force-terminated and moved to ABORTED, each such node's
not-yet-run (pending) strict descendants are cascaded to DEFAULTED, the
state is checkpointed, and the tick returns -1.  If some RUNNING node has no
process attached (a spawn-failed node before its first poll), `terminate`
raises AttributeError and `_abort_all_workers` crashes instead.
(`set_children_defaulted` is modelled from the spec because register.py is
not part of src/; a keyboard interrupt takes the identical
`_abort_all_workers` path in the source.) -/
theorem c3_abort_terminates_and_defaults (lp : LaunchParams) (es : List (Int × Int))
    (st : SchedulerState) (o : TickOracle) (h : o.abort_sig = true)
    (hnd : st.register.running_nodes.Nodup)
    (hproc : ∀ n ∈ st.register.running_nodes, (st.nodes n).proc = true) :
    (∃ st1, abort_all_workers es o.alive st = some st1) ∧
    (∀ st1, abort_all_workers es o.alive st = some st1 →
      scheduler_tick lp es st o = some (st1, some (-1)) ∧
      st1.register.running_nodes = [] ∧
      (∀ n, n ∈ st.register.running_nodes →
          n ∈ st1.register.aborted_nodes ∧ n ∈ st1.terminated) ∧
      (∀ n, n ∈ st.register.running_nodes → ∀ d, isDesc es n d = true →
          d ∈ st.register.pending_nodes → d ∈ st1.register.defaulted_nodes) ∧
      st1.checkpointed = true) := by
  constructor
  · obtain ⟨stf, hstf⟩ := abort_fold_isSome es o.alive st.register.running_nodes st hnd hproc
    exact ⟨{ stf with checkpointed := true }, by unfold abort_all_workers; rw [hstf]⟩
  · intro st1 h1
    have htick : scheduler_tick lp es st o = some (st1, some (-1)) := by
      unfold scheduler_tick
      rw [if_pos h, h1]
    have h1' := h1
    unfold abort_all_workers at h1'
    rcases hfold : abort_fold es o.alive st st.register.running_nodes with _ | stf
    · rw [hfold] at h1'
      exact Option.noConfusion h1'
    · rw [hfold] at h1'
      simp only at h1'
      injection h1' with h1''
      subst h1''
      refine ⟨htick, ?_, ?_, ?_, rfl⟩
      · rw [List.eq_nil_iff_forall_not_mem]
        intro x hx
        obtain ⟨ha, hb⟩ := abort_fold_running es o.alive st.register.running_nodes st stf hfold x hx
        exact hb ha
      · intro n hn
        exact ⟨abort_fold_mem_aborted es o.alive st.register.running_nodes st stf hfold n hn,
          abort_fold_mem_term es o.alive st.register.running_nodes st stf hfold n hn⟩
      · intro n hn d hdesc hd
        exact abort_fold_cascade es o.alive st.register.running_nodes st stf hfold n hn d hdesc hd

/-- C3 witness: aborting a state where node 2 runs with a live process and
its child 3 is pending completes: RUNNING empties, 2 is ABORTED and
terminated, 3 is DEFAULTED, the checkpoint is taken and the tick returns
-1. -/
theorem c3_witness :
    oAbort.abort_sig = true ∧
    stAbortOk.register.running_nodes.Nodup ∧
    (∀ n ∈ stAbortOk.register.running_nodes, (stAbortOk.nodes n).proc = true) ∧
    (∃ st1, abort_all_workers [(2, 3)] oAbort.alive stAbortOk = some st1 ∧
      scheduler_tick {} [(2, 3)] stAbortOk oAbort = some (st1, some (-1)) ∧
      st1.register.running_nodes = [] ∧
      (2 : Int) ∈ st1.register.aborted_nodes ∧
      (2 : Int) ∈ st1.terminated ∧
      (3 : Int) ∈ st1.register.defaulted_nodes ∧
      st1.checkpointed = true) := by
  refine ⟨by decide, by decide, by decide, ?_⟩
  obtain ⟨st1, hst1⟩ := (c3_abort_terminates_and_defaults {} [(2, 3)] stAbortOk oAbort
    (by decide) (by decide) (by decide)).1
  have hc := (c3_abort_terminates_and_defaults {} [(2, 3)] stAbortOk oAbort
    (by decide) (by decide) (by decide)).2 st1 hst1
  exact ⟨st1, hst1, hc.1, hc.2.1,
    (hc.2.2.1 2 (by decide)).1, (hc.2.2.1 2 (by decide)).2,
    hc.2.2.2.1 2 (by decide) 3 (by decide) (by decide), hc.2.2.2.2⟩

/-- The launch phase never touches the COMPLETED set. -/
theorem launch_loop_completed (lp : LaunchParams) (es : List (Int × Int)) (spawnOk : Int → Bool) :
    ∀ (items : List (Int × Nat)) (st : SchedulerState),
      (launch_loop lp es spawnOk st items).register.completed_nodes
        = st.register.completed_nodes
  | [], _ => rfl
  | (n, t) :: rest, st => by
    simp only [launch_loop]
    split_ifs with h1 h2 h3
    · rfl
    · rfl
    · exact launch_loop_completed lp es spawnOk rest _
    · exact launch_loop_completed lp es spawnOk rest _

/-- The launch phase never touches the NORUN set. -/
theorem launch_loop_norun (lp : LaunchParams) (es : List (Int × Int)) (spawnOk : Int → Bool) :
    ∀ (items : List (Int × Nat)) (st : SchedulerState),
      (launch_loop lp es spawnOk st items).register.norun_nodes
        = st.register.norun_nodes
  | [], _ => rfl
  | (n, t) :: rest, st => by
    simp only [launch_loop]
    split_ifs with h1 h2 h3
    · rfl
    · rfl
    · exact launch_loop_norun lp es spawnOk rest _
    · exact launch_loop_norun lp es spawnOk rest _

/-- Launch records are preserved by the launch phase. -/
theorem launch_loop_launched_mono (lp : LaunchParams) (es : List (Int × Int)) (spawnOk : Int → Bool) :
    ∀ (items : List (Int × Nat)) (st : SchedulerState) (x : Int),
      x ∈ st.launched → x ∈ (launch_loop lp es spawnOk st items).launched
  | [], _, _, h => h
  | (n, t) :: rest, st, x, h => by
    simp only [launch_loop]
    split_ifs with h1 h2 h3
    · exact h
    · exact h
    · exact launch_loop_launched_mono lp es spawnOk rest _ x (List.mem_append_left _ h)
    · exact launch_loop_launched_mono lp es spawnOk rest _ x h

/-- Every node the launch phase launches was PENDING and had its dependency
gate satisfied at the start of the phase (the phase never changes COMPLETED
or NORUN, so the gate also held at the moment of the launch). -/
theorem launch_loop_launched_spec (lp : LaunchParams) (es : List (Int × Int)) (spawnOk : Int → Bool) :
    ∀ (items : List (Int × Nat)) (st : SchedulerState),
      (items.map Prod.fst).Nodup →
      (∀ p ∈ items, p.1 ∈ st.register.pending_nodes) →
      ∀ n, n ∈ (launch_loop lp es spawnOk st items).launched →
        n ∈ st.launched ∨
          (n ∈ st.register.pending_nodes ∧ parent_gate es st.register n = true)
  | [], _, _, _, n, hn => Or.inl hn
  | (m, t) :: rest, st, hnd, hmem, n, hn => by
    have hnd' : m ∉ rest.map Prod.fst ∧ (rest.map Prod.fst).Nodup :=
      List.nodup_cons.mp hnd
    simp only [launch_loop] at hn
    split_ifs at hn with h1 h2 h3
    · exact Or.inl hn
    · exact Or.inl hn
    · -- the launch branch
      have hmem' : ∀ p ∈ rest, p.1 ∈ removeS m st.register.pending_nodes := by
        intro p hp
        refine mem_removeS.mpr ⟨hmem p (List.mem_cons_of_mem _ hp), ?_⟩
        intro he
        exact hnd'.1 (he ▸ List.mem_map_of_mem Prod.fst hp)
      rcases launch_loop_launched_spec lp es spawnOk rest _ hnd'.2 hmem' n hn with h | h
      · rcases List.mem_append.mp h with h' | h'
        · exact Or.inl h'
        · have : n = m := List.mem_singleton.mp h'
          subst this
          exact Or.inr ⟨hmem (n, t) (List.mem_cons_self _ _), h3.1⟩
      · refine Or.inr ⟨(mem_removeS.mp h.1).1, ?_⟩
        rw [← parent_gate_congr es n (rfl) (rfl)]
        exact h.2
    · rcases launch_loop_launched_spec lp es spawnOk rest
        { st with sched_wait_until := t + lp.time_between_tasks } hnd'.2
        (fun p hp => hmem p (List.mem_cons_of_mem _ hp)) n hn with h | h
      · exact Or.inl h
      · exact Or.inr h

/-- Every node in RUNNING after the launch phase was already RUNNING or was
recorded as launched by the phase. -/
theorem launch_loop_running_spec (lp : LaunchParams) (es : List (Int × Int)) (spawnOk : Int → Bool) :
    ∀ (items : List (Int × Nat)) (st : SchedulerState) (x : Int),
      x ∈ (launch_loop lp es spawnOk st items).register.running_nodes →
      x ∈ st.register.running_nodes ∨ x ∈ (launch_loop lp es spawnOk st items).launched
  | [], _, _, h => Or.inl h
  | (m, t) :: rest, st, x, h => by
    simp only [launch_loop] at h ⊢
    split_ifs at h ⊢ with h1 h2 h3
    · exact Or.inl h
    · exact Or.inl h
    · rcases launch_loop_running_spec lp es spawnOk rest _ x h with h' | h'
      · rcases mem_addS.mp h' with rfl | h''
        · refine Or.inr (launch_loop_launched_mono lp es spawnOk rest _ x ?_)
          exact List.mem_append_right _ (List.mem_singleton.mpr rfl)
        · exact Or.inl h''
      · exact Or.inr h'
    · rcases launch_loop_running_spec lp es spawnOk rest _ x h with h' | h'
      · exact Or.inl h'
      · exact Or.inr h'

/-- C1: in the launch phase (the only place a node moves from PENDING to
RUNNING and `ExecutionNode.execute` is invoked), every launched node was
PENDING and had every parent with id ≥ 0 inside COMPLETED ∪ NORUN; since the
phase leaves COMPLETED and NORUN unchanged, the gate that was checked at the
moment of launch coincides with the gate over the phase-start register.  The
snapshot `items` pairs the pending-set snapshot with the per-consideration
`time.time()` samples. -/
theorem c1_pending_to_running_requires_parents_done (lp : LaunchParams)
    (es : List (Int × Int)) (spawnOk : Int → Bool) (st : SchedulerState)
    (items : List (Int × Nat))
    (hl : st.launched = [])
    (hnd : (items.map Prod.fst).Nodup)
    (hmem : ∀ p ∈ items, p.1 ∈ st.register.pending_nodes) :
    (∀ n, n ∈ (launch_loop lp es spawnOk st items).launched →
        n ∈ st.register.pending_nodes ∧ parent_gate es st.register n = true) ∧
    (∀ n, n ∈ (launch_loop lp es spawnOk st items).register.running_nodes →
        n ∈ st.register.running_nodes ∨ n ∈ (launch_loop lp es spawnOk st items).launched) ∧
    (launch_loop lp es spawnOk st items).register.completed_nodes
      = st.register.completed_nodes ∧
    (launch_loop lp es spawnOk st items).register.norun_nodes
      = st.register.norun_nodes := by
  refine ⟨?_, ?_, launch_loop_completed lp es spawnOk items st,
    launch_loop_norun lp es spawnOk items st⟩
  · intro n hn
    rcases launch_loop_launched_spec lp es spawnOk items st hnd hmem n hn with h | h
    · rw [hl] at h
      exact absurd h (List.not_mem_nil n)
    · exact h
  · intro n hn
    exact launch_loop_running_spec lp es spawnOk items st n hn

/-- C1 witness: node 2 (single parent 1, COMPLETED) is launched from the
concrete state, and the theorem certifies the dependency gate held. -/
theorem c1_witness :
    stLaunch.launched = [] ∧
    ([(2, 0)].map (Prod.fst (α := Int) (β := Nat))).Nodup ∧
    (∀ p ∈ [((2 : Int), (0 : Nat))], p.1 ∈ stLaunch.register.pending_nodes) ∧
    (2 : Int) ∈ (launch_loop {} [(1, 2)] (fun _ => true) stLaunch [(2, 0)]).launched ∧
    ((2 : Int) ∈ stLaunch.register.pending_nodes ∧
      parent_gate [(1, 2)] stLaunch.register 2 = true) :=
  ⟨by decide, by decide, by decide, by decide,
   (c1_pending_to_running_requires_parents_done {} [(1, 2)] (fun _ => true) stLaunch
     [(2, 0)] (by decide) (by decide) (by decide)).1 2 (by decide)⟩

/-- C10: a PENDING node considered by the launch phase (concurrency cap not
hit, inter-launch interval elapsed) advances the global `_wait_until` to its
consideration time plus `time_between_tasks` before its dependency gate is
evaluated: when the gate fails, no launch happens and the phase continues on
the remaining snapshot from a state that differs only in the postponed
`_wait_until`, so each such consideration delays any later launch by one
inter-launch interval. -/
theorem c10_wait_until_advanced_before_gate (lp : LaunchParams) (es : List (Int × Int))
    (spawnOk : Int → Bool) (st : SchedulerState) (n : Int) (t : Nat)
    (rest : List (Int × Nat))
    (hcap : ¬ (lp.max_procs > 0 ∧ (st.register.running_nodes.length : Int) ≥ lp.max_procs))
    (htime : ¬ t < st.sched_wait_until)
    (hgate : parent_gate es st.register n = false) :
    launch_loop lp es spawnOk st ((n, t) :: rest) =
      launch_loop lp es spawnOk
        { st with sched_wait_until := t + lp.time_between_tasks } rest := by
  simp only [launch_loop]
  rw [if_neg hcap, if_neg htime, if_neg]
  intro hcontra
  have : parent_gate es st.register n = true := hcontra.1
  rw [hgate] at this
  exact Bool.false_ne_true this

/-- C10 witness: node 2's parent 1 is not COMPLETED, so its consideration at
time 5 launches nothing yet advances `_wait_until` to 5 + 4. -/
theorem c10_witness :
    ¬ (({ time_between_tasks := 4 } : LaunchParams).max_procs > 0 ∧
        (stDefaulted2.register.running_nodes.length : Int)
          ≥ ({ time_between_tasks := 4 } : LaunchParams).max_procs) ∧
    ¬ (5 < stDefaulted2.sched_wait_until) ∧
    parent_gate [(1, 2)] stDefaulted2.register 2 = false ∧
    launch_loop { time_between_tasks := 4 } [(1, 2)] (fun _ => true) stDefaulted2
        [(2, 5)] =
      launch_loop { time_between_tasks := 4 } [(1, 2)] (fun _ => true)
        { stDefaulted2 with sched_wait_until := 5 + 4 } [] :=
  ⟨by decide, by decide, by decide,
   c10_wait_until_advanced_before_gate { time_between_tasks := 4 } [(1, 2)]
     (fun _ => true) stDefaulted2 2 5 [] (by decide) (by decide) (by decide)⟩

/-- A negative poll result re-queues the polled node to PENDING. -/
theorem poll_step_neg_mem_pending (es : List (Int × Int)) (reg : NodeRegister) (n : Int)
    {rc : Int} (h : rc < 0) :
    n ∈ (poll_step es reg n (some rc)).pending_nodes := by
  simp only [poll_step]
  rw [if_neg (by omega : ¬ rc > 0), if_pos h]
  exact mem_addS.mpr (Or.inl rfl)

/-- Launching a runnable node attaches a process, increments the attempt
counter once, and leaves the retry bookkeeping fields unchanged. -/
theorem execute_spawn_fields {nd : ExecutionNode} {t : Nat} (h : nd.wait_until ≤ t) :
    (nd.execute t true).proc = true ∧
    (nd.execute t true).attempts = nd.attempts + 1 ∧
    (nd.execute t true).max_attempts = nd.max_attempts ∧
    (nd.execute t true).retry_wait_time = nd.retry_wait_time := by
  have hrun : nd.is_runnable t = true := by
    simp [ExecutionNode.is_runnable, h]
  by_cases h0 : nd.start_time = 0 <;>
    simp [ExecutionNode.execute, hrun, h0]

/-- Polling a dead worker with a positive exit code while attempts remain
reports the transient retry sentinel -1 and sets the retry wait. -/
theorem poll_dead_retry {nd : ExecutionNode} {u : Nat} {c : Int} (hp : nd.proc = true)
    (hc : 0 < c) (ha : nd.attempts < nd.max_attempts) :
    (nd.poll u false false c).2 = some (-1) ∧
    (nd.poll u false false c).1.proc = false ∧
    (nd.poll u false false c).1.attempts = nd.attempts ∧
    (nd.poll u false false c).1.max_attempts = nd.max_attempts ∧
    (nd.poll u false false c).1.retry_wait_time = nd.retry_wait_time ∧
    (nd.poll u false false c).1.wait_until = u + nd.retry_wait_time := by
  simp [ExecutionNode.poll, hp, hc, ha, ExecutionNode.cleanup]

/-- Polling a dead worker on the final permitted attempt reports the
worker's exit code unchanged. -/
theorem poll_dead_final {nd : ExecutionNode} {u : Nat} {c : Int} (hp : nd.proc = true)
    (ha : ¬ nd.attempts < nd.max_attempts) :
    (nd.poll u false false c).2 = some c ∧
    (nd.poll u false false c).1.attempts = nd.attempts := by
  simp [ExecutionNode.poll, hp, ha, ExecutionNode.cleanup]

/-- One-step unfolding of `run_cycles`. -/
theorem run_cycles_cons (c : Int) (nd : ExecutionNode) (t u : Nat) (rest : List (Nat × Nat)) :
    run_cycles c nd ((t, u) :: rest)
      = ((run_cycles c (fail_cycle nd t u c).1 rest).1,
         (fail_cycle nd t u c).2 :: (run_cycles c (fail_cycle nd t u c).1 rest).2) := rfl

/-- A node that keeps failing is retried through the whole schedule: the
first `length - 1` cycles report the retry sentinel -1 and the last one the
worker's positive exit code, with the attempt counter reaching
`max_attempts` exactly. -/
theorem run_cycles_spec (c : Int) (hc : 0 < c) :
    ∀ (sched : List (Nat × Nat)) (nd : ExecutionNode),
      nd.proc = false →
      nd.attempts < nd.max_attempts →
      sched.length = nd.max_attempts - nd.attempts →
      valid_sched nd.wait_until nd.retry_wait_time sched = true →
      (run_cycles c nd sched).1.attempts = nd.max_attempts ∧
      (run_cycles c nd sched).2
        = List.replicate (sched.length - 1) (some (-1)) ++ [some c]
  | [], nd, _, ha, hlen, _ => by
    exfalso
    simp only [List.length_nil] at hlen
    omega
  | (t, u) :: rest, nd, hp, ha, hlen, hv => by
    have hv' : nd.wait_until ≤ t ∧
        valid_sched (u + nd.retry_wait_time) nd.retry_wait_time rest = true := by
      simpa [valid_sched, Bool.and_eq_true] using hv
    obtain ⟨hex1, hex2, hex3, hex4⟩ := execute_spawn_fields hv'.1
    cases rest with
    | nil =>
      have hfin : ¬ (nd.execute t true).attempts < (nd.execute t true).max_attempts := by
        rw [hex2, hex3]
        simp only [List.length_cons, List.length_nil] at hlen
        omega
      obtain ⟨hr2, hr1⟩ := poll_dead_final (u := u) (c := c) hex1 hfin
      simp only [run_cycles, fail_cycle]
      refine ⟨?_, ?_⟩
      · rw [hr1, hex2]
        simp only [List.length_cons, List.length_nil] at hlen
        omega
      · simp [hr2]
    | cons hd tl =>
      have hmid : (nd.execute t true).attempts < (nd.execute t true).max_attempts := by
        rw [hex2, hex3]
        simp only [List.length_cons] at hlen
        omega
      obtain ⟨hq2, hq1, hq3, hq4, hq5, hq6⟩ := poll_dead_retry (u := u) (c := c) hex1 hc hmid
      have ih := run_cycles_spec c hc (hd :: tl) ((nd.execute t true).poll u false false c).1
        hq1
        (by rw [hq3, hq4, hex2, hex3]; simp only [List.length_cons] at hlen; omega)
        (by rw [hq3, hq4, hex2, hex3]; simp only [List.length_cons] at hlen ⊢; omega)
        (by rw [hq6, hq5, hex4]; exact hv'.2)
      rw [run_cycles_cons]
      refine ⟨?_, ?_⟩
      · show (run_cycles c ((nd.execute t true).poll u false false c).1 (hd :: tl)).1.attempts
            = nd.max_attempts
        rw [ih.1, hq4, hex3]
      · show ((nd.execute t true).poll u false false c).2
            :: (run_cycles c ((nd.execute t true).poll u false false c).1 (hd :: tl)).2
            = List.replicate (((t, u) :: hd :: tl).length - 1) (some (-1)) ++ [some c]
        rw [hq2, ih.2]
        simp [List.replicate_succ]

/-- C2: a node with `max_attempts = N` whose worker always exits with the
positive code `c` is attempted exactly N times: each of the first N-1 polls
reports the negative retry sentinel -1 after setting
`wait_until = poll time + retry_wait_time` (so the scheduler re-queues the
node to PENDING), and the N-th poll reports the positive exit code `c`,
which the scheduler classifies into FAILED. -/
theorem c2_failing_node_attempted_exactly_max_times (es : List (Int × Int))
    (nd : ExecutionNode) (c : Int) (sched : List (Nat × Nat))
    (hc : 0 < c) (h0 : nd.attempts = 0) (hp : nd.proc = false)
    (hN : 0 < nd.max_attempts) (hlen : sched.length = nd.max_attempts)
    (hv : valid_sched nd.wait_until nd.retry_wait_time sched = true) :
    (run_cycles c nd sched).2
      = List.replicate (nd.max_attempts - 1) (some (-1)) ++ [some c] ∧
    (run_cycles c nd sched).1.attempts = nd.max_attempts ∧
    (∀ (nd1 : ExecutionNode) (t u : Nat), nd1.proc = false → nd1.wait_until ≤ t →
        nd1.attempts + 1 < nd1.max_attempts →
        (fail_cycle nd1 t u c).2 = some (-1) ∧
        (fail_cycle nd1 t u c).1.wait_until = u + nd1.retry_wait_time) ∧
    (∀ (reg : NodeRegister) (n : Int),
        n ∈ (poll_step es reg n (some (-1))).pending_nodes) ∧
    (∀ (reg : NodeRegister) (n : Int),
        n ∈ (poll_step es reg n (some c)).failed_nodes) := by
  have hmain := run_cycles_spec c hc sched nd hp (by omega) (by omega) hv
  refine ⟨by rw [hmain.2, hlen], hmain.1, ?_, ?_, ?_⟩
  · intro nd1 t u hp1 ht1 ha1
    obtain ⟨he1, he2, he3, he4⟩ := execute_spawn_fields ht1
    have hm : (nd1.execute t true).attempts < (nd1.execute t true).max_attempts := by
      rw [he2, he3]; exact ha1
    obtain ⟨hr1, _, _, _, _, hr6⟩ := poll_dead_retry (u := u) (c := c) he1 hc hm
    exact ⟨hr1, by rw [fail_cycle, hr6, he4]⟩
  · intro reg n
    exact poll_step_neg_mem_pending es reg n (by omega)
  · intro reg n
    exact poll_step_pos_mem_failed es reg n hc

/-- C2 witness: `max_attempts = 3`, worker always exits 7; the run reports
[-1, -1, 7] and the attempt counter ends at 3. -/
theorem c2_witness :
    (0 : Int) < 7 ∧
    ({ max_attempts := 3 } : ExecutionNode).attempts = 0 ∧
    valid_sched 0 0 [(0, 0), (5, 5), (9, 9)] = true ∧
    (run_cycles 7 { max_attempts := 3 } [(0, 0), (5, 5), (9, 9)]).2
      = [some (-1), some (-1), some 7] ∧
    (run_cycles 7 { max_attempts := 3 } [(0, 0), (5, 5), (9, 9)]).1.attempts = 3 :=
  ⟨by decide, by decide, by decide,
   (c2_failing_node_attempted_exactly_max_times [] { max_attempts := 3 } 7
     [(0, 0), (5, 5), (9, 9)] (by decide) (by decide) (by decide) (by decide)
     (by decide) (by decide)).1,
   (c2_failing_node_attempted_exactly_max_times [] { max_attempts := 3 } 7
     [(0, 0), (5, 5), (9, 9)] (by decide) (by decide) (by decide) (by decide)
     (by decide) (by decide)).2.1⟩

/-- The only early return of a tick is the abort path, with value -1. -/
theorem scheduler_tick_some {lp : LaunchParams} {es : List (Int × Int)}
    {st : SchedulerState} {o : TickOracle} {st1 : SchedulerState} {r : Int}
    (h : scheduler_tick lp es st o = some (st1, some r)) : r = -1 := by
  by_cases ha : o.abort_sig = true
  · unfold scheduler_tick at h
    rw [if_pos ha] at h
    rcases hab : abort_all_workers es o.alive st with _ | st2
    · rw [hab] at h
      exact Option.noConfusion h
    · rw [hab] at h
      simp only [Option.some.injEq, Prod.mk.injEq] at h
      omega
  · unfold scheduler_tick at h
    rw [if_neg ha] at h
    simp at h

/-- C5: whenever the execution loop returns, an aborted run (abort signal or
keyboard interrupt) returns -1, and a run that ends without abort returns
exactly the number of nodes in the FAILED set of the final state. -/
theorem c5_exit_code_counts_failed_nodes (lp : LaunchParams) (es : List (Int × Int)) :
    ∀ (os : List TickOracle) (st : SchedulerState) (res : SchedulerState × Int × Bool),
      scheduler_run lp es st os = some res →
      (res.2.2 = true → res.2.1 = -1) ∧
      (res.2.2 = false → res.2.1 = (res.1.register.failed_nodes.length : Int))
  | [], st, res, h => by
    simp only [scheduler_run] at h
    split_ifs at h with hdone
    injection h with h'
    subst h'
    exact ⟨fun hb => by simp at hb, fun _ => rfl⟩
  | o :: rest, st, res, h => by
    simp only [scheduler_run] at h
    split_ifs at h with hdone
    · injection h with h'
      subst h'
      exact ⟨fun hb => by simp at hb, fun _ => rfl⟩
    · rcases htick : scheduler_tick lp es st o with _ | ⟨st1, orr⟩
      · rw [htick] at h
        exact Option.noConfusion h
      · rw [htick] at h
        cases orr with
        | some r =>
          simp only at h
          injection h with h'
          subst h'
          refine ⟨fun _ => ?_, fun hb => by simp at hb⟩
          exact scheduler_tick_some htick
        | none =>
          simp only at h
          exact c5_exit_code_counts_failed_nodes lp es rest st1 res h

/-- C5 witness: a finished run with two FAILED nodes and nothing live
returns 2 with the abort flag down. -/
theorem c5_witness :
    scheduler_run {} [] stDone [] = some (stDone, ((2 : Int), false)) ∧
    (2 : Int) = (stDone.register.failed_nodes.length : Int) :=
  ⟨rfl,
   (c5_exit_code_counts_failed_nodes {} [] [] stDone (stDone, ((2 : Int), false)) rfl).2 rfl⟩
